import Mathlib

/-!
Shallow embedding of the decision-and-orchestration core of the bot
(`src/core/game_state.py`, `src/core/mob_controller.py`,
`src/core/combo_manager.py`, `src/core/combat_system.py`,
`src/core/route_manager.py`) together with theorems settling the frozen
claims about it.

Conventions of the embedding:
* Python floats are modelled as rationals; none of the verified
  properties depends on floating-point rounding.
* The source's `Position.distance_to` computes a Euclidean distance (a
  square root).  Every comparison the source makes between such a
  distance and a nonnegative threshold `c` is embedded as the equivalent
  comparison of the squared distance against `c ^ 2` (both sides are
  nonnegative and squaring is strictly monotone there), keeping all
  definitions executable over the rationals.  Stored "distance" fields
  hold the squared distance under the same convention.
* Python dicts whose iteration order matters (`tracked_mobs`,
  `current_mobs`) are association lists with at most one entry per key;
  the pure key-value store `skill_cooldowns` is a function
  `String → Option SkillCooldown`; the partial stats mapping passed to
  `update_stats` is an association list so that extra keys can be
  present and ignored exactly as in the source.
* Wall-clock time (`time.time()` / event-loop time) is passed explicitly
  as a rational parameter `now`.
* Fallible code paths are modelled with `Option` (e.g. the `NameError`
  path of `GameState.update_position` when no time has elapsed).
* The embedded scripting runtime (`lua.eval` of a combo's condition
  string) is an external boolean oracle passed as a parameter, per the
  spec's treatment of script-supplied predicates as external functions.
-/

namespace BotCore

/-- Enumeration `CharacterState` of `game_state.py`. -/
inductive CharacterState where
  | idle | moving | combat | dead | stunned | knockdown | frozen
  deriving DecidableEq, Repr

/-- Enumeration `CombatState` of `game_state.py`. -/
inductive CombatState where
  | none | attacking | defending | chasing | escaping
  deriving DecidableEq, Repr

/-- Dataclass `Position` of `game_state.py` (x, y, z, rotation). -/
structure Position where
  x : ℚ
  y : ℚ
  z : ℚ
  rotation : ℚ := 0
  deriving DecidableEq, Repr

/-- Squared Euclidean distance over x/y/z: the square of the source's
`Position.distance_to` (see the embedding conventions above). -/
def Position.sqDist (p q : Position) : ℚ :=
  (p.x - q.x) ^ 2 + (p.y - q.y) ^ 2 + (p.z - q.z) ^ 2

/-- Dataclass `CharacterStats` of `game_state.py`. -/
structure CharacterStats where
  level : ℤ := 1
  hp : ℚ := 100
  hpMax : ℚ := 100
  mp : ℚ := 100
  mpMax : ℚ := 100
  wp : ℚ := 100
  wpMax : ℚ := 100
  stamina : ℚ := 100
  staminaMax : ℚ := 100
  ap : ℤ := 0
  dp : ℤ := 0
  accuracy : ℤ := 0
  evasion : ℤ := 0
  deriving DecidableEq, Repr

/-- Dataclass `SkillCooldown`: `remaining_time` stores the absolute
expiry timestamp (`time.time() + duration`), exactly as
`start_skill_cooldown` fills it in. -/
structure SkillCooldown where
  skillId : String
  remainingTime : ℚ
  totalCooldown : ℚ
  deriving DecidableEq, Repr

/-- Read-only mob projection stored by `GameState.update_mobs`
(shape of `MobController._mob_info_to_dict`). -/
structure MobProj where
  id : ℕ
  mobType : String
  position : Position
  health : ℚ
  distance : ℚ
  threatLevel : ℚ
  isAggro : Bool
  isElite : Bool
  deriving DecidableEq, Repr

/-- Entry of `GameState.nearby_players`; only the `is_hostile` flag is
consulted by the core. -/
structure PlayerInfo where
  isHostile : Bool
  deriving DecidableEq, Repr

/-- The `GameState` store of `game_state.py`.  Fields that no embedded
operation reads or writes and that no claim mentions (inventory,
equipment, weight, frame-time telemetry, the logger and the asyncio
lock) are omitted; the lock serializes the mutators, so each mutator is
one atomic state transformer here. -/
structure GameState where
  characterState : CharacterState := .idle
  combatState : CombatState := .none
  position : Position := ⟨0, 0, 0, 0⟩
  stats : CharacterStats := {}
  activeBuffs : List (String × ℚ) := []
  skillCooldowns : String → Option SkillCooldown := fun _ => Option.none
  combatStance : Bool := false
  detectedMobs : List MobProj := []
  targetedMob : Option MobProj := Option.none
  aggroMobs : List ℕ := []
  nearbyPlayers : List PlayerInfo := []
  isSafeZone : Bool := false
  isPvpZone : Bool := false
  lastUpdate : ℚ := 0

/-- The state `GameState.__init__` builds (construction time taken as 0). -/
def initGameState : GameState := {}

/-- Method `GameState.update_combat_state`: no-op when unchanged;
otherwise commits the new combat state and couples the character state
(`ATTACKING` forces `COMBAT`; `NONE` while in `COMBAT` yields `IDLE`). -/
def updateCombatState (s : GameState) (newState : CombatState) : GameState :=
  if newState = s.combatState then s
  else
    { s with
      combatState := newState
      characterState :=
        if newState = .attacking then .combat
        else if newState = .none ∧ s.characterState = .combat then .idle
        else s.characterState }

/-- Method `GameState.update_position`.  The local `distance` is
assigned only under `time_diff > 0`; when no time has elapsed the later
`if distance > 0.1` raises `NameError`, modelled as `Option.none`.  The
anomalous-speed branch only logs, so it does not appear.  The movement
threshold `distance > 0.1` is embedded as `sqDist > (1/10) ^ 2`. -/
def updatePosition (s : GameState) (now : ℚ) (newPos : Position) :
    Option GameState :=
  let timeDiff := now - s.lastUpdate
  if 0 < timeDiff then
    let sqd := Position.sqDist s.position newPos
    some
      { s with
        position := newPos
        lastUpdate := now
        characterState :=
          if (1 / 10 : ℚ) ^ 2 < sqd then .moving
          else if s.characterState = .moving then .idle
          else s.characterState }
  else Option.none

/-- Method `GameState.update_stats`: merges the four fields the code
reads from the mapping (`hp`, `mp`, `wp`, `stamina`, each defaulting to
the current value); if the merged hp is ≤ 0 the character state becomes
`DEAD` (the low-hp branch only logs). -/
def updateStats (s : GameState) (m : List (String × ℚ)) : GameState :=
  let hp := (m.lookup "hp").getD s.stats.hp
  let mp := (m.lookup "mp").getD s.stats.mp
  let wp := (m.lookup "wp").getD s.stats.wp
  let stamina := (m.lookup "stamina").getD s.stats.stamina
  { s with
    stats := { s.stats with hp := hp, mp := mp, wp := wp, stamina := stamina }
    characterState := if hp ≤ 0 then .dead else s.characterState }

/-- Method `GameState.start_skill_cooldown`: the dict assignment
`skill_cooldowns[id] = SkillCooldown(id, now + duration, duration)`. -/
def startSkillCooldown (s : GameState) (now : ℚ) (skillId : String)
    (duration : ℚ) : GameState :=
  { s with
    skillCooldowns := fun k =>
      if k = skillId then some ⟨skillId, now + duration, duration⟩
      else s.skillCooldowns k }

/-- Method `GameState.update_skill_cooldowns`: maintenance sweep deleting
every entry whose expiry has passed (`now ≥ remaining_time`). -/
def updateSkillCooldowns (s : GameState) (now : ℚ) : GameState :=
  { s with
    skillCooldowns := fun k =>
      match s.skillCooldowns k with
      | some cd => if cd.remainingTime ≤ now then Option.none else some cd
      | Option.none => Option.none }

/-- Method `GameState.can_use_skill`: true when no entry exists for the
skill or `now ≥ remaining_time` (the stored expiry). -/
def canUseSkill (s : GameState) (now : ℚ) (skillId : String) : Bool :=
  match s.skillCooldowns skillId with
  | Option.none => true
  | some cd => cd.remainingTime ≤ now

/-- A `GameState` mutating operation, for claims quantifying over
sequences of them; `move` carries the call's wall-clock time. -/
inductive GOp where
  | combat (c : CombatState)
  | move (now : ℚ) (p : Position)
  | stats (m : List (String × ℚ))

/-- Runs a sequence of mutating operations from a state; `Option.none`
when an `update_position` call hits the `NameError` path. -/
def runGOps (s : GameState) : List GOp → Option GameState
  | [] => some s
  | GOp.combat c :: rest => runGOps (updateCombatState s c) rest
  | GOp.move now p :: rest =>
      match updatePosition s now p with
      | some s' => runGOps s' rest
      | Option.none => Option.none
  | GOp.stats m :: rest => runGOps (updateStats s m) rest

/-- The coupling invariant of claim C1: combat state `ATTACKING` forces
character state `COMBAT`. -/
def combatCoupled (s : GameState) : Prop :=
  s.combatState = .attacking → s.characterState = .combat

instance (s : GameState) : Decidable (combatCoupled s) := by
  unfold combatCoupled; infer_instance

/-- A skill-cooldown operation of claim C6, with its wall-clock time. -/
inductive SkillOp where
  | start (skillId : String) (duration : ℚ) (t : ℚ)
  | sweep (t : ℚ)

/-- The wall-clock time at which a skill-cooldown operation runs. -/
def SkillOp.time : SkillOp → ℚ
  | .start _ _ t => t
  | .sweep t => t

/-- Runs an interleaving of `start_skill_cooldown` and
`update_skill_cooldowns` calls from a state. -/
def runSkillOps (s : GameState) : List SkillOp → GameState
  | [] => s
  | SkillOp.start id dur t :: rest => runSkillOps (startSkillCooldown s t id dur) rest
  | SkillOp.sweep t :: rest => runSkillOps (updateSkillCooldowns s t) rest

/-- The time and duration of the most recent `start_skill_cooldown` call
for a given skill id in an operation sequence, if any. -/
def lastStart (ops : List SkillOp) (skillId : String) : Option (ℚ × ℚ) :=
  ops.foldl
    (fun acc op =>
      match op with
      | SkillOp.start id dur t => if id = skillId then some (t, dur) else acc
      | SkillOp.sweep _ => acc)
    Option.none

/-! Embedding of `combo_manager.py`. -/

/-- The `action_type` tag of a combo action. -/
inductive ActionType where
  | press | hold | release
  deriving DecidableEq, Repr

/-- Dataclass `ComboAction` of `combo_manager.py`. -/
structure ComboAction where
  keys : List String
  actionType : ActionType
  duration : ℚ := 0
  animationTime : ℚ := 0
  deriving DecidableEq, Repr

/-- Dataclass `Combo` of `combo_manager.py`; the Lua condition source
string is replaced by the external oracle passed to the functions that
evaluate it. -/
structure Combo where
  name : String
  actions : List ComboAction
  cooldown : ℚ
  mpCost : ℚ
  rangeType : String
  totalDuration : ℚ := 0
  deriving DecidableEq, Repr

/-- An input-emission event sent to the `InputHandler`: `tap` is
`press_key` with no duration (a momentary press that holds nothing),
`down` is `hold_key` (`keyDown`), `up` is `release_key` (`keyUp`). -/
inductive KeyEv where
  | tap (k : String)
  | down (k : String)
  | up (k : String)
  deriving DecidableEq, Repr

/-- Input events emitted by one combo action in `execute_combo`: `press`
taps each key; `hold` holds each key, waits, then releases them in
reverse order; `release` releases each key. -/
def stepEvents (a : ComboAction) : List KeyEv :=
  match a.actionType with
  | .press => a.keys.map KeyEv.tap
  | .hold => a.keys.map KeyEv.down ++ a.keys.reverse.map KeyEv.up
  | .release => a.keys.map KeyEv.up

/-- The fixed modifier keys released first by `release_all_keys`. -/
def modKeys : List String := ["shift", "ctrl", "alt"]

/-- Every input referenced by any step of a combo, in order. -/
def comboKeys (c : Combo) : List String :=
  c.actions.flatMap (fun a => a.keys)

/-- Events emitted by `release_all_keys`: releases the modifiers, then —
when a combo is in flight (`current_combo` set) — every key of every one
of its actions. -/
def releaseAllEvents (inFlight : Option Combo) : List KeyEv :=
  modKeys.map KeyEv.up ++
    (match inFlight with
     | some c => (comboKeys c).map KeyEv.up
     | Option.none => [])

/-- The slice of `GameState` read by `_check_action_conditions`. -/
structure ActionEnv where
  characterState : CharacterState
  hp : ℚ
  deriving DecidableEq, Repr

/-- Method `ComboManager._check_action_conditions`: fails when the
character is stunned, knocked down or dead, or hp ≤ 0. -/
def checkActionConditions (e : ActionEnv) : Bool :=
  if e.characterState = .stunned ∨ e.characterState = .knockdown ∨
      e.characterState = .dead then false
  else if e.hp ≤ 0 then false
  else true

/-- The step loop of `execute_combo` over the remaining actions, with
`envs j` the `GameState` slice observed by the pre-step check of the
j-th step of the whole combo and `k` the index of the first remaining
step.  On a failed check it emits the `release_all_keys` events (with
the combo in flight) and reports failure. -/
def runComboActionsGo (combo : Combo) (envs : ℕ → ActionEnv) :
    ℕ → List ComboAction → Bool × List KeyEv
  | _, [] => (true, [])
  | k, a :: rest =>
      if checkActionConditions (envs k) then
        let r := runComboActionsGo combo envs (k + 1) rest
        (r.1, stepEvents a ++ r.2)
      else (false, releaseAllEvents (some combo))

/-- The mutable state of a `ComboManager` (loaded combos, the two
performance counters, the execution history) together with the
`GameState` it aliases.  `current_combo` is always `None` outside
`execute_combo` (it is reset in the `finally` block), so it does not
appear as a field; the in-flight combo is passed to `releaseAllEvents`
directly.  `last_combo_time` duplicates the last history entry and is
read by no claim. -/
structure MgrState where
  combos : List (String × Combo)
  successfulSkills : ℕ := 0
  totalSkills : ℕ := 0
  comboHistory : List (String × ℚ) := []
  gs : GameState := initGameState

/-- History append of `execute_combo`: push the entry, then drop the
oldest when the length exceeds `max_history = 50`. -/
def pushHistory (h : List (String × ℚ)) (e : String × ℚ) :
    List (String × ℚ) :=
  let h' := h ++ [e]
  if 50 < h'.length then h'.tail else h'

/-- The most recent history timestamp for a combo name, defaulting to 0
(`next((t for n, t in reversed(history) if n == name), 0)`). -/
def lastUse (h : List (String × ℚ)) (name : String) : ℚ :=
  ((h.reverse.find? (fun e => e.1 == name)).map Prod.snd).getD 0

/-- Method `ComboManager._check_cooldown`:
`now - last_use >= combo.cooldown`. -/
def checkCooldown (h : List (String × ℚ)) (now : ℚ) (c : Combo) : Bool :=
  c.cooldown ≤ now - lastUse h c.name

/-- Method `ComboManager._check_combo_conditions`: cooldown check, then
the resource check `mp < mp_cost → fail`, then the Lua condition
(external oracle; an evaluation error also yields failure, so the oracle
already covers that branch). -/
def checkComboConditions (st : MgrState) (now : ℚ) (c : Combo)
    (luaOk : Bool) : Bool :=
  checkCooldown st.comboHistory now c &&
    !(decide (st.gs.stats.mp < c.mpCost)) && luaOk

/-- Method `ComboManager._consume_mp`:
`game_state.stats.mp -= combo.mp_cost`, with no clamping. -/
def consumeMp (gs : GameState) (c : Combo) : GameState :=
  { gs with stats := { gs.stats with mp := gs.stats.mp - c.mpCost } }

/-- The outcome of `execute_combo`: its boolean result, the input events
it emitted, and the manager state it leaves behind. -/
structure ExecOutcome where
  result : Bool
  events : List KeyEv
  st : MgrState

/-- Method `ComboManager.execute_combo` at wall-clock time `now`:
unknown name or failed pre-conditions reject without side effects; an
accepted call records the history entry, runs the steps, and on full
completion increments both counters, starts the combo's cooldown in the
game state and debits its mp cost. -/
def executeCombo (st : MgrState) (name : String) (now : ℚ) (luaOk : Bool)
    (envs : ℕ → ActionEnv) : ExecOutcome :=
  match st.combos.lookup name with
  | Option.none => ⟨false, [], st⟩
  | some combo =>
      if checkComboConditions st now combo luaOk then
        let st1 := { st with comboHistory := pushHistory st.comboHistory (name, now) }
        let r := runComboActionsGo combo envs 0 combo.actions
        if r.1 then
          ⟨true, r.2,
            { st1 with
              successfulSkills := st1.successfulSkills + 1
              totalSkills := st1.totalSkills + 1
              gs := consumeMp
                (startSkillCooldown st1.gs now combo.name combo.cooldown)
                combo }⟩
        else ⟨false, r.2, st1⟩
      else ⟨false, [], st⟩

/-- Effect of one input event on the set of held-down keys: a tap holds
nothing, `keyDown` adds the key, `keyUp` removes it. -/
def applyKeyEv (held : Finset String) : KeyEv → Finset String
  | .tap _ => held
  | .down k => insert k held
  | .up k => held.erase k

/-- The set of held-down keys after a list of input events. -/
def heldAfter (evs : List KeyEv) (held : Finset String) : Finset String :=
  evs.foldl applyKeyEv held

/-- The keys released (`keyUp`) by a list of events, in order. -/
def upList (evs : List KeyEv) : List String :=
  evs.filterMap (fun e =>
    match e with
    | .up k => some k
    | _ => Option.none)

/-- The keys pressed down (`keyDown`) by a list of events, in order. -/
def downList (evs : List KeyEv) : List String :=
  evs.filterMap (fun e =>
    match e with
    | .down k => some k
    | _ => Option.none)

/-! Embedding of `mob_controller.py`. -/

/-- Dataclass `MobInfo` of `mob_controller.py`; `distance` holds the
squared distance to the observer per the embedding conventions. -/
structure MobInfo where
  mobId : ℕ
  mobType : String
  position : Position
  health : ℚ
  size : ℤ × ℤ
  distance : ℚ
  threatLevel : ℚ
  lastSeen : ℚ
  isAggro : Bool := false
  isElite : Bool := false
  deriving DecidableEq, Repr

/-- A raw per-frame detection as `process_frame` consumes it: the
`mob_type` and `bbox` entries it indexes, the optional `is_elite` and
`distance` entries `_calculate_threat_level` looks up with defaults, and
whether an `elite` key is present (the `'elite' in detection` test). -/
structure Detection where
  mobType : String
  bbox : ℤ × ℤ × ℤ × ℤ
  isElite : Option Bool := Option.none
  distanceKey : Option ℚ := Option.none
  hasEliteKey : Bool := false
  deriving DecidableEq, Repr

/-- Method `MobController._screen_to_world_pos`: bbox centre projected to
world coordinates, with y fixed at 0. -/
def screenToWorldPos (bbox : ℤ × ℤ × ℤ × ℤ) : Position :=
  ⟨(bbox.1 : ℚ) + (bbox.2.2.1 : ℚ) / 2, 0,
   (bbox.2.1 : ℚ) + (bbox.2.2.2 : ℚ) / 2, 0⟩

/-- Method `MobController._calculate_threat_level`: normalized bbox area,
plus 0.5 when `is_elite`, plus 0.3 when the `distance` entry (default 0)
is under 10, capped at 1. -/
def calculateThreatLevel (d : Detection) : ℚ :=
  let threat := ((d.bbox.2.2.1 * d.bbox.2.2.2 : ℤ) : ℚ) / 10000
  let threat := threat + (if d.isElite.getD false then (1 / 2 : ℚ) else 0)
  let threat := threat + (if d.distanceKey.getD 0 < 10 then (3 / 10 : ℚ) else 0)
  min threat 1

/-- Method `MobController._find_matching_mob`: greedy scan of the tracked
table for the mob nearest to the projected position among those within
the match radius (5 units; squared, 25). -/
def findMatchingMob (tracked : List (ℕ × MobInfo)) (pos : Position) :
    Option MobInfo :=
  (tracked.foldl
    (fun acc e =>
      let d := Position.sqDist e.2.position pos
      let belowMin :=
        match acc.2 with
        | Option.none => true
        | some m => decide (d < m)
      if belowMin && decide (d < 25) then (some e.2, some d) else acc)
    ((Option.none : Option MobInfo), (Option.none : Option ℚ))).1

/-- Dict assignment `current_mobs[mob_id] = mob`: update in place when
the key exists, otherwise append (Python dict insertion order). -/
def dictInsert (l : List (ℕ × MobInfo)) (k : ℕ) (v : MobInfo) :
    List (ℕ × MobInfo) :=
  if l.any (fun e => e.1 == k) then
    l.map (fun e => if e.1 == k then (k, v) else e)
  else l ++ [(k, v)]

/-- The loop state of `process_frame`: the tracked table (whose matched
entries are mutated in place through shared references), the
`current_mobs` dict under construction, and the id counter. -/
structure FrameLoopState where
  tracked : List (ℕ × MobInfo)
  currentMobs : List (ℕ × MobInfo)
  counter : ℕ

/-- One iteration of the detection loop of `process_frame`: project the
bbox, match against the tracked table; a match refreshes
position/distance/last-seen (mutating the shared `MobInfo`), a miss
allocates a fresh id (`_generate_mob_id` pre-increments the counter) and
builds a new mob. -/
def processFrameStep (playerPos : Position) (now : ℚ)
    (st : FrameLoopState) (d : Detection) : FrameLoopState :=
  let position := screenToWorldPos d.bbox
  let distance := Position.sqDist playerPos position
  match findMatchingMob st.tracked position with
  | some tm =>
      let updated := { tm with position := position, distance := distance, lastSeen := now }
      { tracked := st.tracked.map (fun e => if e.1 == tm.mobId then (e.1, updated) else e)
        currentMobs := dictInsert st.currentMobs tm.mobId updated
        counter := st.counter }
  | Option.none =>
      let mobId := st.counter + 1
      let newMob : MobInfo :=
        { mobId := mobId
          mobType := d.mobType
          position := position
          health := 100
          size := (d.bbox.2.2.1, d.bbox.2.2.2)
          distance := distance
          threatLevel := calculateThreatLevel d
          lastSeen := now
          isAggro := false
          isElite := d.hasEliteKey }
      { tracked := st.tracked
        currentMobs := dictInsert st.currentMobs mobId newMob
        counter := mobId }

/-- Method `MobController._cleanup_old_mobs`: deletes every tracked entry
whose last-seen timestamp is older than `mob_memory_time = 3.0`. -/
def cleanupOldMobs (tracked : List (ℕ × MobInfo)) (now : ℚ) :
    List (ℕ × MobInfo) :=
  tracked.filter (fun e => !(decide ((3 : ℚ) < now - e.2.lastSeen)))

/-- The tracking core of `MobController.process_frame`: fold the
detection loop, run `_cleanup_old_mobs` on the (mutated) old table, then
execute `self.tracked_mobs = current_mobs` — which discards the cleanup
result wholesale.  Returns the new tracked table and id counter. -/
def processFrameTracking (tracked : List (ℕ × MobInfo)) (idCounter : ℕ)
    (playerPos : Position) (now : ℚ) (detections : List Detection) :
    List (ℕ × MobInfo) × ℕ :=
  let final := detections.foldl (processFrameStep playerPos now)
    ⟨tracked, [], idCounter⟩
  let _cleaned := cleanupOldMobs final.tracked now
  (final.currentMobs, final.counter)

/-- Constant `MobController.max_chase_distance = 50.0`. -/
def mobMaxChaseDistance : ℚ := 50

/-- Method `MobController.is_target_valid`: false when there is no
current target, its id is no longer tracked, or its stored distance
exceeds the maximum chase distance; it consults neither the target's
health nor any kill counter. -/
def mobIsTargetValid (target : Option MobInfo)
    (tracked : List (ℕ × MobInfo)) : Bool :=
  match target with
  | Option.none => false
  | some t =>
      if !(tracked.any (fun e => e.1 == t.mobId)) then false
      else if mobMaxChaseDistance ^ 2 < t.distance then false
      else true

/-! Embedding of `combat_system.py`. -/

/-- The slice of `CombatSystem` state read and written by the PvP gate. -/
structure PvpState where
  lastPvpCheck : ℚ := 0
  pvpEnabled : Bool := false
  deriving DecidableEq, Repr

/-- Method `CombatSystem._check_pvp_threat`: returns false (without
evaluating the threat condition or touching `last_pvp_check`) when less
than one second has passed since the last evaluation; otherwise records
the evaluation time and reports a threat exactly when any nearby player
exists and PvP is disabled — the players' hostility flags are never
read. -/
def checkPvpThreat (st : PvpState) (now : ℚ) (players : List PlayerInfo) :
    Bool × PvpState :=
  if now - st.lastPvpCheck < 1 then (false, st)
  else
    (decide (0 < players.length) && !st.pvpEnabled,
     { st with lastPvpCheck := now })

/-- The PvP gate of `CombatSystem.update`: when `_check_pvp_threat`
reports a threat, `_handle_pvp_threat` runs, which always calls
`_emergency_exit` (exit combat, release inputs, attempt an escape
combo).  The returned boolean is therefore exactly "the cycle
transitioned to the emergency exit at this gate". -/
def pvpGateTransitions (st : PvpState) (now : ℚ)
    (players : List PlayerInfo) : Bool × PvpState :=
  checkPvpThreat st now players

/-- Method `CombatSystem._is_target_valid`: false when the distance to
the target exceeds the maximum chase distance (checked first) or the
target's health is ≤ 0; the health branch also increments the kill
counter.  It never consults the tracked-mob table. -/
def combatIsTargetValid (target : Option MobInfo) (playerPos : Position)
    (maxChase : ℚ) (kills : ℕ) : Bool × ℕ :=
  match target with
  | Option.none => (false, kills)
  | some t =>
      if maxChase ^ 2 < Position.sqDist playerPos t.position then
        (false, kills)
      else if t.health ≤ 0 then (false, kills + 1)
      else (true, kills)

/-! Embedding of `route_manager.py`. -/

/-- The stuck-detection state of `RouteManager`. -/
structure RouteState where
  lastPosition : Option Position := Option.none
  stuckCounter : ℕ := 0
  deriving DecidableEq, Repr

/-- Method `RouteManager.update_position`: with a previous position on
record, movement under 1 unit (squared, 1) increments the stuck counter
and any other movement resets it to 0; the first update only records the
position. -/
def rmUpdatePosition (st : RouteState) (p : Position) : RouteState :=
  match st.lastPosition with
  | Option.none => { st with lastPosition := some p }
  | some q =>
      { lastPosition := some p
        stuckCounter :=
          if Position.sqDist p q < 1 then st.stuckCounter + 1 else 0 }

/-- Method `RouteManager.is_stuck`: the counter strictly exceeds 10. -/
def rmIsStuck (st : RouteState) : Bool :=
  decide (10 < st.stuckCounter)

/-- A run of consecutive `update_position` calls. -/
def rmRun (st : RouteState) (ps : List Position) : RouteState :=
  ps.foldl rmUpdatePosition st

/-! Concrete fixtures used to instantiate the theorems below. -/

/-- A two-step combo: hold `w` for one second, then tap `f`. -/
def slashCombo : Combo :=
  { name := "slash"
    actions := [⟨["w"], .hold, 1, 0⟩, ⟨["f"], .press, 0, 0⟩]
    cooldown := 1
    mpCost := 0
    rangeType := "close" }

/-- A fresh combo manager with only `slashCombo` loaded. -/
def slashMgr : MgrState := { combos := [("slash", slashCombo)] }

/-- Step environments: the first pre-step check sees a fighting
character, every later one sees a stunned character. -/
def slashEnvs : ℕ → ActionEnv :=
  fun j => if j = 0 then ⟨.combat, 100⟩ else ⟨.stunned, 100⟩

/-- Step environments in which every pre-step check passes. -/
def allOkEnvs : ℕ → ActionEnv := fun _ => ⟨.combat, 100⟩

/-- Step environments in which every pre-step check fails (stunned). -/
def stunnedEnvs : ℕ → ActionEnv := fun _ => ⟨.stunned, 100⟩

/-- A game state whose character has only 5 mp left. -/
def mpFiveState : GameState :=
  { initGameState with stats := { initGameState.stats with mp := 5 } }

/-- A combo costing 10 mp and no inputs. -/
def costTenCombo : Combo :=
  { name := "burst", actions := [], cooldown := 0, mpCost := 10
    rangeType := "close" }

/-- A combo manager whose character has only 5 mp left. -/
def mpFiveMgr : MgrState := { combos := [], gs := mpFiveState }

/-- A tracked mob, close by and still tracked, whose health reached 0. -/
def deadTrackedMob : MobInfo :=
  { mobId := 1, mobType := "wolf", position := ⟨0, 0, 0, 0⟩, health := 0
    size := (10, 10), distance := 0, threatLevel := 0, lastSeen := 0 }

/-- A tracked mob last seen at time 0, well within the memory window of
a cycle at time 1. -/
def staleMob : MobInfo :=
  { mobId := 1, mobType := "wolf", position := ⟨0, 0, 0, 0⟩, health := 100
    size := (10, 10), distance := 0, threatLevel := 0, lastSeen := 0 }

/-- A reachable game state whose character is in combat while hp is
already 0 (reached by `update_stats {hp: 0}` followed by
`update_combat_state(ATTACKING)`). -/
def zeroHpCombatState : GameState :=
  updateCombatState (updateStats initGameState [("hp", 0)]) .attacking

/-! Theorems.  Helper lemmas come first, then one theorem per claim
(with its witness or counterexample where required). -/

lemma updateCombatState_coupled (s : GameState) (c : CombatState)
    (h : combatCoupled s) : combatCoupled (updateCombatState s c) := by
  unfold combatCoupled updateCombatState at *
  by_cases hc : c = s.combatState
  · simpa [hc] using h
  · rcases c with _ | _ | _ | _ | _ <;> simp [hc]

lemma foldl_updateCombatState_coupled (s : GameState)
    (h : combatCoupled s) (ops : List CombatState) :
    combatCoupled (ops.foldl updateCombatState s) := by
  induction ops generalizing s with
  | nil => simpa using h
  | cons c rest ih => exact ih _ (updateCombatState_coupled s c h)

/-- C1 (amended): for every sequence of `update_combat_state` operations
from the initial state, combat state `ATTACKING` implies character state
`COMBAT`, and `update_combat_state` moves the character state away from
`COMBAT` only when the new combat state is `NONE`.  (The other two
mutators break the original claim: see the counterexample.) -/
theorem combat_state_coupling :
    (∀ ops : List CombatState,
      combatCoupled (ops.foldl updateCombatState initGameState)) ∧
    (∀ (s : GameState) (c : CombatState),
      s.characterState = .combat →
      (updateCombatState s c).characterState ≠ .combat →
      c = .none) := by
  constructor
  · intro ops
    exact foldl_updateCombatState_coupled _ (by decide) ops
  · intro s c h1 h2
    by_cases hc : c = s.combatState
    · simp [updateCombatState, hc, h1] at h2
    · rcases c with _ | _ | _ | _ | _ <;>
        simp_all [updateCombatState]

/-- C1 counterexample: after `update_combat_state(ATTACKING)` followed by
`update_position` with a movement above the 0.1 threshold, the combat
state is still `ATTACKING` while the character state has moved to
`MOVING` (not `COMBAT`), refuting both halves of the original claim. -/
theorem combat_state_coupling_counterexample :
    (runGOps initGameState
        [GOp.combat .attacking, GOp.move 1 ⟨1, 0, 0, 0⟩]).map
        (fun s => (s.combatState, s.characterState)) =
      some (CombatState.attacking, CharacterState.moving) ∧
    CharacterState.moving ≠ CharacterState.combat := by
  refine ⟨?_, by decide⟩
  simp [runGOps, updateCombatState, updatePosition, initGameState]
  norm_num [Position.sqDist]

/-- C1 witness: the amended theorem instantiated at a concrete state and
transition. -/
theorem combat_state_coupling_witness :
    combatCoupled ([CombatState.attacking].foldl updateCombatState
      initGameState) ∧ CombatState.none = CombatState.none :=
  ⟨combat_state_coupling.1 [CombatState.attacking],
   combat_state_coupling.2 (updateCombatState initGameState .attacking)
     .none (by decide) (by decide)⟩

/-- C9: with a previous position on record, a movement under 1 unit
increments the stuck counter, a movement of at least 1 unit resets it to
0, `is_stuck` holds exactly when the counter exceeds 10, and a run of
consecutive sub-threshold movements adds its length to the counter (so
the 11th consecutive sub-threshold movement from a reset counter is the
first to make `is_stuck` true). -/
theorem stuck_detection :
    (∀ (st : RouteState) (p q : Position),
      st.lastPosition = some q → Position.sqDist p q < 1 →
      (rmUpdatePosition st p).stuckCounter = st.stuckCounter + 1) ∧
    (∀ (st : RouteState) (p q : Position),
      st.lastPosition = some q → ¬ Position.sqDist p q < 1 →
      (rmUpdatePosition st p).stuckCounter = 0) ∧
    (∀ st : RouteState, rmIsStuck st = true ↔ 10 < st.stuckCounter) ∧
    (∀ (st : RouteState) (q : Position) (ps : List Position),
      st.lastPosition = some q →
      List.Chain (fun a b => Position.sqDist b a < 1) q ps →
      (rmRun st ps).stuckCounter = st.stuckCounter + ps.length) := by
  refine ⟨?_, ?_, ?_, ?_⟩
  · intro st p q hq hd
    simp [rmUpdatePosition, hq, hd]
  · intro st p q hq hd
    simp [rmUpdatePosition, hq, hd]
  · intro st
    simp [rmIsStuck]
  · intro st q ps
    induction ps generalizing st q with
    | nil => intro _ _; simp [rmRun]
    | cons p rest ih =>
        intro hq hchain
        rcases hchain with _ | ⟨hd, hchain⟩
        have h1 : (rmUpdatePosition st p).stuckCounter = st.stuckCounter + 1 := by
          simp [rmUpdatePosition, hq, hd]
        have h2 : (rmUpdatePosition st p).lastPosition = some p := by
          simp [rmUpdatePosition, hq]
        have h3 := ih (rmUpdatePosition st p) p h2 hchain
        simp only [rmRun] at h3 ⊢
        rw [List.foldl_cons, h3, h1, List.length_cons]
        omega

/-- C9 witness: the movement ⟨0.5, 0, 0⟩ → sub-threshold increments; a
movement of 2 units resets; an 11-step sub-threshold run starting from a
reset counter makes `is_stuck` true. -/
theorem stuck_detection_witness :
    (rmUpdatePosition ⟨some ⟨0, 0, 0, 0⟩, 3⟩ ⟨1/2, 0, 0, 0⟩).stuckCounter = 4 ∧
    (rmUpdatePosition ⟨some ⟨0, 0, 0, 0⟩, 3⟩ ⟨2, 0, 0, 0⟩).stuckCounter = 0 ∧
    (rmIsStuck ⟨some ⟨0, 0, 0, 0⟩, 11⟩ = true ↔ 10 < 11) ∧
    (rmRun ⟨some ⟨0, 0, 0, 0⟩, 0⟩
        (List.replicate 11 ⟨0, 0, 0, 0⟩)).stuckCounter = 0 + 11 :=
  ⟨stuck_detection.1 _ _ ⟨0, 0, 0, 0⟩ rfl (by norm_num [Position.sqDist]),
   stuck_detection.2.1 _ _ ⟨0, 0, 0, 0⟩ rfl (by norm_num [Position.sqDist]),
   stuck_detection.2.2.1 _,
   stuck_detection.2.2.2 _ ⟨0, 0, 0, 0⟩ _ rfl (by
     have : ∀ n, List.Chain (fun a b => Position.sqDist b a < 1)
         (⟨0, 0, 0, 0⟩ : Position) (List.replicate n ⟨0, 0, 0, 0⟩) := by
       intro n
       induction n with
       | zero => exact List.Chain.nil
       | succ n ih =>
           exact List.Chain.cons (by norm_num [Position.sqDist]) ih
     simpa using this 11)⟩

/-- C10 (amended): `update_stats` changes only the hp/mp/wp/stamina
stat fields (each taken from the mapping when present, retained
otherwise) and the character state, which becomes `DEAD` exactly when
the merged hp — the provided one, or the retained current hp when the
mapping has no `hp` key — is ≤ 0; every other field of the world state,
including `hp_max`, `mp_max`, level, ap and dp, and any extra keys in
the mapping, is ignored. -/
theorem update_stats_frame (s : GameState) (m : List (String × ℚ)) :
    (updateStats s m).position = s.position ∧
    (updateStats s m).combatState = s.combatState ∧
    (updateStats s m).skillCooldowns = s.skillCooldowns ∧
    (updateStats s m).activeBuffs = s.activeBuffs ∧
    (updateStats s m).combatStance = s.combatStance ∧
    (updateStats s m).detectedMobs = s.detectedMobs ∧
    (updateStats s m).targetedMob = s.targetedMob ∧
    (updateStats s m).aggroMobs = s.aggroMobs ∧
    (updateStats s m).nearbyPlayers = s.nearbyPlayers ∧
    (updateStats s m).isSafeZone = s.isSafeZone ∧
    (updateStats s m).isPvpZone = s.isPvpZone ∧
    (updateStats s m).lastUpdate = s.lastUpdate ∧
    (updateStats s m).stats.hpMax = s.stats.hpMax ∧
    (updateStats s m).stats.mpMax = s.stats.mpMax ∧
    (updateStats s m).stats.wpMax = s.stats.wpMax ∧
    (updateStats s m).stats.staminaMax = s.stats.staminaMax ∧
    (updateStats s m).stats.level = s.stats.level ∧
    (updateStats s m).stats.ap = s.stats.ap ∧
    (updateStats s m).stats.dp = s.stats.dp ∧
    (updateStats s m).stats.accuracy = s.stats.accuracy ∧
    (updateStats s m).stats.evasion = s.stats.evasion ∧
    (updateStats s m).stats.hp = (m.lookup "hp").getD s.stats.hp ∧
    (updateStats s m).stats.mp = (m.lookup "mp").getD s.stats.mp ∧
    (updateStats s m).stats.wp = (m.lookup "wp").getD s.stats.wp ∧
    (updateStats s m).stats.stamina = (m.lookup "stamina").getD s.stats.stamina ∧
    (updateStats s m).characterState =
      (if (m.lookup "hp").getD s.stats.hp ≤ 0 then .dead
       else s.characterState) := by
  refine ⟨rfl, rfl, rfl, rfl, rfl, rfl, rfl, rfl, rfl, rfl, rfl, rfl,
    rfl, rfl, rfl, rfl, rfl, rfl, rfl, rfl, rfl, rfl, rfl, rfl, rfl, rfl⟩

/-- C10 counterexample: from the reachable state with hp = 0 and
character state `COMBAT`, `update_stats` with an empty mapping (no hp
provided) still flips the character state to `DEAD`, so the character
state can change on a call whose mapping provides no hp at all. -/
theorem update_stats_frame_counterexample :
    zeroHpCombatState.characterState = CharacterState.combat ∧
    List.lookup "hp" ([] : List (String × ℚ)) = Option.none ∧
    (updateStats zeroHpCombatState []).characterState =
      CharacterState.dead := by
  refine ⟨?_, rfl, ?_⟩ <;>
    simp [updateStats, zeroHpCombatState, updateCombatState, initGameState]

/-- C5 (amended): `_consume_mp` subtracts the combo's cost from mp with
no clamping, so the result equals the previous mp minus the cost and is
nonnegative only when the cost did not exceed the previous mp; the
debited value is exactly what the next `_check_combo_conditions`
resource check observes (a cost above it makes that check fail). -/
theorem consume_mp_no_clamp :
    (∀ (gs : GameState) (c : Combo),
      (consumeMp gs c).stats.mp = gs.stats.mp - c.mpCost) ∧
    (∀ (gs : GameState) (c : Combo),
      c.mpCost ≤ gs.stats.mp → 0 ≤ (consumeMp gs c).stats.mp) ∧
    (∀ (st : MgrState) (c c' : Combo) (now : ℚ) (luaOk : Bool),
      (consumeMp st.gs c).stats.mp < c'.mpCost →
      checkComboConditions { st with gs := consumeMp st.gs c } now c' luaOk
        = false) := by
  refine ⟨fun gs c => rfl, fun gs c h => ?_, fun st c c' now luaOk h => ?_⟩
  · simpa [consumeMp, sub_nonneg] using h
  · simp [checkComboConditions, h]

/-- C5 counterexample: debiting a 10-mp combo from 5 mp yields -5, a
negative value, not the 0 the claim's clamping would produce. -/
theorem consume_mp_no_clamp_counterexample :
    (consumeMp mpFiveState costTenCombo).stats.mp = -5 ∧
    (consumeMp mpFiveState costTenCombo).stats.mp < 0 := by
  norm_num [consumeMp, mpFiveState, costTenCombo, initGameState]

/-- C5 witness: the amended theorem instantiated at concrete states. -/
theorem consume_mp_no_clamp_witness :
    0 ≤ (consumeMp initGameState costTenCombo).stats.mp ∧
    checkComboConditions { mpFiveMgr with gs := consumeMp mpFiveMgr.gs costTenCombo }
      0 costTenCombo true = false :=
  ⟨consume_mp_no_clamp.2.1 initGameState costTenCombo
     (by norm_num [costTenCombo, initGameState]),
   consume_mp_no_clamp.2.2 mpFiveMgr costTenCombo costTenCombo 0 true
     (by norm_num [consumeMp, mpFiveMgr, mpFiveState, costTenCombo,
       initGameState])⟩

/-- C7 (amended): the PvP gate transitions to the emergency exit exactly
when at least one second has passed since the last evaluation, at least
one nearby player is present (hostile or not — the hostility flag is
never read), and PvP is disabled; an evaluation records its time, and a
second call within one second of an evaluation never reports a threat,
so the underlying condition is consulted at most once per second. -/
theorem pvp_gate :
    (∀ (st : PvpState) (now : ℚ) (players : List PlayerInfo),
      (pvpGateTransitions st now players).1 = true ↔
        (1 ≤ now - st.lastPvpCheck ∧ players ≠ [] ∧
          st.pvpEnabled = false)) ∧
    (∀ (st : PvpState) (now : ℚ) (players : List PlayerInfo),
      1 ≤ now - st.lastPvpCheck →
      (checkPvpThreat st now players).2.lastPvpCheck = now) ∧
    (∀ (st : PvpState) (now now' : ℚ)
        (players players' : List PlayerInfo),
      1 ≤ now - st.lastPvpCheck → now' - now < 1 →
      (checkPvpThreat (checkPvpThreat st now players).2 now' players').1
        = false) := by
  refine ⟨fun st now players => ?_, fun st now players h => ?_,
    fun st now now' players players' h h' => ?_⟩
  · by_cases h : now - st.lastPvpCheck < 1
    · simp [pvpGateTransitions, checkPvpThreat, h]
    · simp [pvpGateTransitions, checkPvpThreat, h, not_lt.mp h,
        List.length_pos]
  · simp [checkPvpThreat, not_lt.mpr h]
  · simp [checkPvpThreat, not_lt.mpr h, h']

/-- C7 counterexample: with PvP disabled and the rate limit satisfied, a
single nearby player whose hostility flag is false still triggers the
gate, so the transition does not require a hostile player. -/
theorem pvp_gate_counterexample :
    (checkPvpThreat ⟨0, false⟩ 2 [⟨false⟩]).1 = true ∧
    ∀ p ∈ [PlayerInfo.mk false], p.isHostile = false := by
  constructor
  · have h : ¬ (2 : ℚ) - 0 < 1 := by norm_num
    simp [checkPvpThreat, h]
  · decide

/-- C7 witness: the amended theorem instantiated at concrete inputs. -/
theorem pvp_gate_witness :
    ((pvpGateTransitions ⟨0, false⟩ 2 [⟨false⟩]).1 = true ↔
      (1 ≤ (2 : ℚ) - (PvpState.mk 0 false).lastPvpCheck ∧
        [PlayerInfo.mk false] ≠ [] ∧
        (PvpState.mk 0 false).pvpEnabled = false)) ∧
    (checkPvpThreat (checkPvpThreat ⟨0, false⟩ 2 [⟨false⟩]).2
      (5 / 2) [⟨true⟩]).1 = false :=
  ⟨pvp_gate.1 ⟨0, false⟩ 2 [⟨false⟩],
   pvp_gate.2.2 ⟨0, false⟩ 2 (5 / 2) [⟨false⟩] [⟨true⟩]
     (by norm_num) (by norm_num)⟩

/-- C8 (amended): `MobController.is_target_valid` is true exactly when a
target exists, its id is still tracked and its distance does not exceed
the maximum chase distance — it never consults health and has no kill
counter; `CombatSystem._is_target_valid` is true exactly when a target
exists within the maximum chase distance with positive health, it never
consults the tracked table, and it increments the kill counter exactly
when the distance check passes and health is ≤ 0 (a dead target beyond
the chase distance is not counted). -/
theorem target_validity_checks :
    (∀ tracked : List (ℕ × MobInfo),
      mobIsTargetValid Option.none tracked = false) ∧
    (∀ (m : MobInfo) (tracked : List (ℕ × MobInfo)),
      mobIsTargetValid (some m) tracked = true ↔
        (tracked.any (fun e => e.1 == m.mobId) = true ∧
          m.distance ≤ mobMaxChaseDistance ^ 2)) ∧
    (∀ (pos : Position) (maxChase : ℚ) (kills : ℕ),
      combatIsTargetValid Option.none pos maxChase kills =
        (false, kills)) ∧
    (∀ (m : MobInfo) (pos : Position) (maxChase : ℚ) (kills : ℕ),
      (combatIsTargetValid (some m) pos maxChase kills).1 = true ↔
        (Position.sqDist pos m.position ≤ maxChase ^ 2 ∧
          0 < m.health)) ∧
    (∀ (m : MobInfo) (pos : Position) (maxChase : ℚ) (kills : ℕ),
      (combatIsTargetValid (some m) pos maxChase kills).2 =
        if Position.sqDist pos m.position ≤ maxChase ^ 2 ∧ m.health ≤ 0
        then kills + 1 else kills) := by
  refine ⟨fun tracked => rfl, fun m tracked => ?_,
    fun pos maxChase kills => rfl, fun m pos maxChase kills => ?_,
    fun m pos maxChase kills => ?_⟩
  · cases h1 : tracked.any (fun e => e.1 == m.mobId) with
    | false => simp [mobIsTargetValid, h1]
    | true =>
        by_cases h2 : mobMaxChaseDistance ^ 2 < m.distance
        · simp [mobIsTargetValid, h1, h2, not_le.mpr h2]
        · simp [mobIsTargetValid, h1, h2, not_lt.mp h2]
  · by_cases h1 : maxChase ^ 2 < Position.sqDist pos m.position
    · simp [combatIsTargetValid, h1, not_le.mpr h1]
    · by_cases h2 : m.health ≤ 0
      · simp [combatIsTargetValid, h1, h2, not_lt.mpr h2]
      · simp [combatIsTargetValid, h1, h2, not_lt.mp h1, not_le.mp h2]
  · by_cases h1 : maxChase ^ 2 < Position.sqDist pos m.position
    · simp [combatIsTargetValid, h1, not_le.mpr h1]
    · by_cases h2 : m.health ≤ 0
      · simp [combatIsTargetValid, h1, h2, not_lt.mp h1]
      · simp [combatIsTargetValid, h1, h2]

/-- C8 counterexample: a still-tracked, zero-health target within chase
distance passes `MobController.is_target_valid`, although the claim
requires the check to fail (and count a kill) when health is ≤ 0. -/
theorem target_validity_checks_counterexample :
    mobIsTargetValid (some deadTrackedMob) [(1, deadTrackedMob)] = true ∧
    deadTrackedMob.health ≤ 0 := by
  constructor
  · simp [mobIsTargetValid, deadTrackedMob]
    norm_num [mobMaxChaseDistance]
  · norm_num [deadTrackedMob]

/-- C2: the failing input evaluated — a mob last refreshed at time 0 is
dropped by a cycle at time 1 with no detections, although the 3-second
memory window (`_cleanup_old_mobs`, whose output the assignment
`self.tracked_mobs = current_mobs` discards) would have kept it. -/
theorem mob_memory_window_bug :
    (processFrameTracking [(1, staleMob)] 1 ⟨0, 0, 0, 0⟩ 1 []).1 = [] ∧
    cleanupOldMobs [(1, staleMob)] 1 = [(1, staleMob)] ∧
    (1 : ℚ) - staleMob.lastSeen ≤ 3 := by
  refine ⟨rfl, ?_, by norm_num [staleMob]⟩
  have h : ¬ (3 : ℚ) < 1 - staleMob.lastSeen := by norm_num [staleMob]
  simp [cleanupOldMobs, h]

lemma runSkillOps_append (s : GameState) (ops : List SkillOp)
    (op : SkillOp) :
    runSkillOps s (ops ++ [op]) = runSkillOps (runSkillOps s ops) [op] := by
  induction ops generalizing s with
  | nil => rfl
  | cons o rest ih => cases o <;> simp [runSkillOps, ih]

lemma lastStart_append (ops : List SkillOp) (op : SkillOp) (id : String) :
    lastStart (ops ++ [op]) id =
      match op with
      | SkillOp.start idA dur t =>
          if idA = id then some (t, dur) else lastStart ops id
      | SkillOp.sweep _ => lastStart ops id := by
  cases op <;> simp [lastStart, List.foldl_append]

lemma skill_cooldown_state (ops : List SkillOp) (id : String) :
    ∀ T : ℚ, (∀ op ∈ ops, op.time ≤ T) →
    ((runSkillOps initGameState ops).skillCooldowns id =
        (lastStart ops id).map (fun td => ⟨id, td.1 + td.2, td.2⟩) ∨
      ∃ t dur, lastStart ops id = some (t, dur) ∧
        (runSkillOps initGameState ops).skillCooldowns id = Option.none ∧
        t + dur ≤ T) := by
  induction ops using List.reverseRecOn with
  | nil => intro T hT; left; rfl
  | append_singleton ops op ih =>
      intro T hT
      have ihT := ih T (fun o ho => hT o (by simp [ho]))
      have hop : op.time ≤ T := hT op (by simp)
      rw [runSkillOps_append, lastStart_append]
      cases op with
      | start idA dur t =>
          by_cases hid : idA = id
          · subst hid
            left
            simp [runSkillOps, startSkillCooldown]
          · have hid2 : ¬ id = idA := fun h => hid h.symm
            rcases ihT with h | ⟨t0, d0, h1, h2, h3⟩
            · left
              simp [runSkillOps, startSkillCooldown, hid, hid2, h]
            · right
              exact ⟨t0, d0, by simp [hid, h1],
                by simp [runSkillOps, startSkillCooldown, hid2, h2], h3⟩
      | sweep u =>
          dsimp only
          have hu' : u ≤ T := hop
          rcases ihT with h | ⟨t0, d0, h1, h2, h3⟩
          · cases hls : lastStart ops id with
            | none =>
                rw [hls] at h
                simp only [Option.map_none'] at h
                left
                simp [runSkillOps, updateSkillCooldowns, h, hls]
            | some td =>
                rcases td with ⟨t0, d0⟩
                rw [hls] at h
                simp only [Option.map_some'] at h
                by_cases hexp : t0 + d0 ≤ u
                · right
                  exact ⟨t0, d0, rfl,
                    by simp [runSkillOps, updateSkillCooldowns, h, hexp],
                    le_trans hexp hu'⟩
                · left
                  simp [runSkillOps, updateSkillCooldowns, h, hexp, hls]
          · right
            exact ⟨t0, d0, h1,
              by simp [runSkillOps, updateSkillCooldowns, h2], h3⟩

/-- C6 (amended): for every interleaving of `start_skill_cooldown` and
`update_skill_cooldowns` calls whose timestamps do not run past the
query time, `can_use_skill(id)` returns true iff `start_skill_cooldown`
was never called for `id`, or the elapsed time since the most recent
such call is at least (boundary inclusive, not strictly greater than)
the duration given in that call. -/
theorem can_use_skill_iff (ops : List SkillOp) (now : ℚ) (id : String)
    (hT : ∀ op ∈ ops, op.time ≤ now) :
    canUseSkill (runSkillOps initGameState ops) now id = true ↔
      (lastStart ops id = Option.none ∨
        ∃ t dur, lastStart ops id = some (t, dur) ∧ t + dur ≤ now) := by
  rcases skill_cooldown_state ops id now hT with h | ⟨t, dur, h1, h2, h3⟩
  · cases hls : lastStart ops id with
    | none =>
        rw [hls] at h
        simp only [Option.map_none'] at h
        simp [canUseSkill, h, hls]
    | some td =>
        rcases td with ⟨t, dur⟩
        rw [hls] at h
        simp only [Option.map_some'] at h
        simp [canUseSkill, h, hls]
        constructor
        · intro hle
          exact ⟨t, dur, ⟨rfl, rfl⟩, hle⟩
        · rintro ⟨t1, d1, ⟨ht, hd⟩, hle⟩
          rw [ht, hd]
          exact hle
  · rw [h1]
    refine ⟨fun _ => Or.inr ⟨t, dur, rfl, h3⟩, fun _ => ?_⟩
    simp [canUseSkill, h2]

/-- C6 counterexample: querying at exactly start-time plus duration,
`can_use_skill` already returns true although the elapsed time does not
(strictly) exceed the duration, so the claim's strict reading fails at
the boundary. -/
theorem can_use_skill_iff_counterexample :
    canUseSkill (runSkillOps initGameState [SkillOp.start "fireball" 5 0])
      5 "fireball" = true ∧
    lastStart [SkillOp.start "fireball" 5 0] "fireball" = some (0, 5) ∧
    ¬ ((5 : ℚ) - 0 > 5) := by
  refine ⟨?_, by simp [lastStart], by norm_num⟩
  simp [canUseSkill, runSkillOps, startSkillCooldown, initGameState]

/-- C6 witness: the amended theorem instantiated at one start call and a
later query. -/
theorem can_use_skill_iff_witness :
    canUseSkill (runSkillOps initGameState [SkillOp.start "heal" 2 0]) 6
        "heal" = true ↔
      (lastStart [SkillOp.start "heal" 2 0] "heal" = Option.none ∨
        ∃ t dur,
          lastStart [SkillOp.start "heal" 2 0] "heal" = some (t, dur) ∧
          t + dur ≤ 6) :=
  can_use_skill_iff [SkillOp.start "heal" 2 0] 6 "heal" (by
    intro op hop
    simp only [List.mem_singleton] at hop
    subst hop
    norm_num [SkillOp.time])

lemma heldAfter_append (l1 l2 : List KeyEv) (S : Finset String) :
    heldAfter (l1 ++ l2) S = heldAfter l2 (heldAfter l1 S) := by
  simp [heldAfter, List.foldl_append]

lemma heldAfter_subset_downs :
    ∀ (evs : List KeyEv) (S : Finset String),
      heldAfter evs S ⊆ S ∪ (downList evs).toFinset := by
  intro evs
  induction evs with
  | nil => intro S; simp [heldAfter, downList]
  | cons e rest ih =>
      intro S
      cases e with
      | tap k => exact (ih S).trans (by simp [downList])
      | down k =>
          refine (ih (insert k S)).trans ?_
          intro x hx
          simp only [Finset.mem_union, Finset.mem_insert,
            List.mem_toFinset, downList, List.filterMap_cons,
            List.mem_cons] at hx ⊢
          tauto
      | up k =>
          refine (ih (S.erase k)).trans ?_
          intro x hx
          simp only [Finset.mem_union, Finset.mem_erase,
            List.mem_toFinset, downList, List.filterMap_cons] at hx ⊢
          tauto

lemma heldAfter_map_up :
    ∀ (l : List String) (S : Finset String),
      heldAfter (l.map KeyEv.up) S = S \ l.toFinset := by
  intro l
  induction l with
  | nil => intro S; simp [heldAfter]
  | cons k rest ih =>
      intro S
      have h1 : heldAfter ((k :: rest).map KeyEv.up) S =
          heldAfter (rest.map KeyEv.up) (S.erase k) := rfl
      rw [h1, ih (S.erase k), Finset.erase_eq, sdiff_sdiff,
        List.toFinset_cons, Finset.insert_eq, Finset.sup_eq_union]

lemma releaseAllEvents_some (c : Combo) :
    releaseAllEvents (some c) = (modKeys ++ comboKeys c).map KeyEv.up := by
  simp [releaseAllEvents, List.map_append]

lemma upList_map_up (l : List String) : upList (l.map KeyEv.up) = l := by
  induction l with
  | nil => rfl
  | cons k rest ih => simpa [upList, List.filterMap_cons] using ih

lemma downList_map_down (l : List String) :
    downList (l.map KeyEv.down) = l := by
  induction l with
  | nil => rfl
  | cons k rest ih => simpa [downList, List.filterMap_cons] using ih

lemma downList_map_up (l : List String) :
    downList (l.map KeyEv.up) = [] := by
  induction l with
  | nil => rfl
  | cons k rest ih => simp [downList, List.filterMap_cons, ih]

lemma downList_map_tap (l : List String) :
    downList (l.map KeyEv.tap) = [] := by
  induction l with
  | nil => rfl
  | cons k rest ih => simp [downList, List.filterMap_cons, ih]

lemma downList_stepEvents (a : ComboAction) :
    ∀ x ∈ downList (stepEvents a), x ∈ a.keys := by
  intro x hx
  cases ha : a.actionType <;>
    simp only [stepEvents, ha, downList, List.filterMap_append] at hx
  · rw [show List.filterMap _ (a.keys.map KeyEv.tap) =
        downList (a.keys.map KeyEv.tap) from rfl, downList_map_tap] at hx
    exact absurd hx (List.not_mem_nil x)
  · rw [show List.filterMap _ (a.keys.map KeyEv.down) =
        downList (a.keys.map KeyEv.down) from rfl, downList_map_down,
      show List.filterMap _ (a.keys.reverse.map KeyEv.up) =
        downList (a.keys.reverse.map KeyEv.up) from rfl,
      downList_map_up] at hx
    simpa using hx
  · rw [show List.filterMap _ (a.keys.map KeyEv.up) =
        downList (a.keys.map KeyEv.up) from rfl, downList_map_up] at hx
    exact absurd hx (List.not_mem_nil x)

lemma runComboActionsGo_all_ok (combo : Combo) (envs : ℕ → ActionEnv) :
    ∀ (acts : List ComboAction) (k : ℕ),
      (∀ j, j < acts.length → checkActionConditions (envs (k + j)) = true) →
      runComboActionsGo combo envs k acts =
        (true, acts.flatMap stepEvents) := by
  intro acts
  induction acts with
  | nil => intro k _; rfl
  | cons a rest ih =>
      intro k h
      have h0 : checkActionConditions (envs k) = true := by
        simpa using h 0 (by simp)
      have hrest : ∀ j, j < rest.length →
          checkActionConditions (envs (k + 1 + j)) = true := by
        intro j hj
        have hmem := h (j + 1) (by simpa using Nat.succ_lt_succ hj)
        have e : k + (j + 1) = k + 1 + j := by omega
        rwa [e] at hmem
      simp [runComboActionsGo, h0, ih (k + 1) hrest]

lemma runComboActionsGo_abort (combo : Combo) (envs : ℕ → ActionEnv) :
    ∀ (acts : List ComboAction) (k i : ℕ),
      i < acts.length →
      (∀ j, j < i → checkActionConditions (envs (k + j)) = true) →
      checkActionConditions (envs (k + i)) = false →
      ∃ E, runComboActionsGo combo envs k acts =
          (false, E ++ releaseAllEvents (some combo)) ∧
        ∀ x ∈ downList E, x ∈ acts.flatMap (fun a => a.keys) := by
  intro acts
  induction acts with
  | nil => intro k i hi _ _; exact absurd hi (by simp)
  | cons a rest ih =>
      intro k i hi hok hfail
      cases i with
      | zero =>
          have h0 : checkActionConditions (envs k) = false := by
            simpa using hfail
          exact ⟨[], by simp [runComboActionsGo, h0], by simp [downList]⟩
      | succ iPrev =>
          have h0 : checkActionConditions (envs k) = true := by
            simpa using hok 0 (Nat.succ_pos _)
          have hok' : ∀ j, j < iPrev →
              checkActionConditions (envs (k + 1 + j)) = true := by
            intro j hj
            have hmem := hok (j + 1) (Nat.succ_lt_succ hj)
            have e : k + (j + 1) = k + 1 + j := by omega
            rwa [e] at hmem
          have hfail' : checkActionConditions (envs (k + 1 + iPrev)) = false := by
            have e : k + (iPrev + 1) = k + 1 + iPrev := by omega
            rwa [e] at hfail
          obtain ⟨E, hE, hsub⟩ := ih (k + 1) iPrev
            (by simpa using Nat.lt_of_succ_lt_succ hi) hok' hfail'
          refine ⟨stepEvents a ++ E, ?_, ?_⟩
          · simp [runComboActionsGo, h0, hE]
          · intro x hx
            simp only [downList, List.filterMap_append] at hx
            rcases List.mem_append.mp hx with hx | hx
            · have := downList_stepEvents a x hx
              simp [List.mem_flatMap]
              exact Or.inl this
            · have := hsub x hx
              simp only [List.mem_flatMap] at this ⊢
              obtain ⟨b, hb, hxb⟩ := this
              exact ⟨b, List.mem_cons_of_mem a hb, hxb⟩

/-- C3: when an accepted `execute_combo` run hits a failed pre-step
cancellation check at some step, it returns failure, its event trace
ends with the `release_all_keys` events, the set of keys those events
release is exactly the fixed modifiers united with every input
referenced by any step of the in-flight combo, and no key is left held
after the trace. -/
theorem combo_abort_releases_all
    (st : MgrState) (name : String) (combo : Combo) (now : ℚ)
    (luaOk : Bool) (envs : ℕ → ActionEnv) (i : ℕ)
    (hc : st.combos.lookup name = some combo)
    (hcond : checkComboConditions st now combo luaOk = true)
    (hi : i < combo.actions.length)
    (hok : ∀ j, j < i → checkActionConditions (envs j) = true)
    (hfail : checkActionConditions (envs i) = false) :
    (executeCombo st name now luaOk envs).result = false ∧
    (∃ E, (executeCombo st name now luaOk envs).events =
      E ++ releaseAllEvents (some combo)) ∧
    (upList (releaseAllEvents (some combo))).toFinset =
      modKeys.toFinset ∪ (comboKeys combo).toFinset ∧
    heldAfter (executeCombo st name now luaOk envs).events ∅ = ∅ := by
  have hok0 : ∀ j, j < i → checkActionConditions (envs (0 + j)) = true := by
    intro j hj; simpa using hok j hj
  have hfail0 : checkActionConditions (envs (0 + i)) = false := by
    simpa using hfail
  obtain ⟨E, hE, hsub⟩ :=
    runComboActionsGo_abort combo envs combo.actions 0 i hi hok0 hfail0
  have hexec : (executeCombo st name now luaOk envs).events =
      E ++ releaseAllEvents (some combo) ∧
      (executeCombo st name now luaOk envs).result = false := by
    constructor <;> simp [executeCombo, hc, hcond, hE]
  refine ⟨hexec.2, ⟨E, hexec.1⟩, ?_, ?_⟩
  · rw [releaseAllEvents_some, upList_map_up, List.toFinset_append]
  · rw [hexec.1, heldAfter_append, releaseAllEvents_some, heldAfter_map_up,
      Finset.sdiff_eq_empty_iff_subset]
    have h1 := heldAfter_subset_downs E ∅
    rw [Finset.empty_union] at h1
    refine h1.trans ?_
    intro x hx
    rw [List.mem_toFinset] at hx
    rw [List.toFinset_append, Finset.mem_union, List.mem_toFinset,
      List.mem_toFinset]
    exact Or.inr (hsub x hx)

/-- C3 witness: the abort theorem instantiated at a two-step combo whose
second pre-step check sees a stunned character. -/
theorem combo_abort_releases_all_witness :
    (executeCombo slashMgr "slash" 5 true slashEnvs).result = false ∧
    heldAfter (executeCombo slashMgr "slash" 5 true slashEnvs).events ∅
      = ∅ := by
  have h := combo_abort_releases_all slashMgr "slash" slashCombo 5 true
    slashEnvs 1
    (by rfl)
    (by norm_num [checkComboConditions, checkCooldown, lastUse, slashMgr,
      slashCombo, initGameState])
    (by norm_num [slashCombo])
    (by
      intro j hj
      have hj0 : j = 0 := by omega
      subst hj0
      norm_num [slashEnvs, checkActionConditions]
      decide)
    (by norm_num [slashEnvs, checkActionConditions])
  exact ⟨h.1, h.2.2.2⟩

/-- C4 (amended): for every accepted `execute_combo` call, full
completion of all steps returns success, increments the success and
attempt counters by exactly one each, starts the combo's cooldown and
debits its mp cost; failure at a pre-step check returns failure and
leaves both counters and the whole game state (cooldowns and mp
included) unchanged — the attempt counter is not incremented on
failure. -/
theorem combo_counters
    (st : MgrState) (name : String) (combo : Combo) (now : ℚ)
    (luaOk : Bool) (envs : ℕ → ActionEnv)
    (hc : st.combos.lookup name = some combo)
    (hcond : checkComboConditions st now combo luaOk = true) :
    ((∀ j, j < combo.actions.length →
        checkActionConditions (envs j) = true) →
      (executeCombo st name now luaOk envs).result = true ∧
      (executeCombo st name now luaOk envs).st.successfulSkills =
        st.successfulSkills + 1 ∧
      (executeCombo st name now luaOk envs).st.totalSkills =
        st.totalSkills + 1 ∧
      (executeCombo st name now luaOk envs).st.gs.skillCooldowns
        combo.name =
        some ⟨combo.name, now + combo.cooldown, combo.cooldown⟩ ∧
      (executeCombo st name now luaOk envs).st.gs.stats.mp =
        st.gs.stats.mp - combo.mpCost) ∧
    (∀ i, i < combo.actions.length →
      (∀ j, j < i → checkActionConditions (envs j) = true) →
      checkActionConditions (envs i) = false →
      (executeCombo st name now luaOk envs).result = false ∧
      (executeCombo st name now luaOk envs).st.successfulSkills =
        st.successfulSkills ∧
      (executeCombo st name now luaOk envs).st.totalSkills =
        st.totalSkills ∧
      (executeCombo st name now luaOk envs).st.gs = st.gs) := by
  constructor
  · intro hall
    have hall0 : ∀ j, j < combo.actions.length →
        checkActionConditions (envs (0 + j)) = true := by
      intro j hj; simpa using hall j hj
    have hrun := runComboActionsGo_all_ok combo envs combo.actions 0 hall0
    refine ⟨?_, ?_, ?_, ?_, ?_⟩ <;>
      simp [executeCombo, hc, hcond, hrun, consumeMp, startSkillCooldown]
  · intro i hi hok hfail
    have hok0 : ∀ j, j < i → checkActionConditions (envs (0 + j)) = true := by
      intro j hj; simpa using hok j hj
    have hfail0 : checkActionConditions (envs (0 + i)) = false := by
      simpa using hfail
    obtain ⟨E, hE, _⟩ :=
      runComboActionsGo_abort combo envs combo.actions 0 i hi hok0 hfail0
    refine ⟨?_, ?_, ?_, ?_⟩ <;> simp [executeCombo, hc, hcond, hE]

/-- C4 counterexample: an accepted call whose first pre-step check fails
returns failure with the attempt counter (`total_skills`) unchanged at
0, not incremented to 1 as the claim requires. -/
theorem combo_counters_counterexample :
    (executeCombo slashMgr "slash" 5 true stunnedEnvs).result = false ∧
    (executeCombo slashMgr "slash" 5 true stunnedEnvs).st.totalSkills =
      slashMgr.totalSkills ∧
    slashMgr.totalSkills = 0 := by
  have hrun : runComboActionsGo slashCombo stunnedEnvs 0
      slashCombo.actions = (false, releaseAllEvents (some slashCombo)) :=
    rfl
  have hcond : checkComboConditions slashMgr 5 slashCombo true = true := by
    norm_num [checkComboConditions, checkCooldown, lastUse, slashMgr,
      slashCombo, initGameState]
  have hc : slashMgr.combos.lookup "slash" = some slashCombo := rfl
  refine ⟨?_, ?_, rfl⟩ <;> simp [executeCombo, hc, hcond, hrun]

/-- C4 witness: the amended theorem's completion half instantiated at a
run of the two-step combo in which every check passes. -/
theorem combo_counters_witness :
    (executeCombo slashMgr "slash" 5 true allOkEnvs).result = true ∧
    (executeCombo slashMgr "slash" 5 true allOkEnvs).st.successfulSkills =
      slashMgr.successfulSkills + 1 ∧
    (executeCombo slashMgr "slash" 5 true allOkEnvs).st.totalSkills =
      slashMgr.totalSkills + 1 := by
  have h := (combo_counters slashMgr "slash" slashCombo 5 true allOkEnvs
    (by rfl)
    (by norm_num [checkComboConditions, checkCooldown, lastUse, slashMgr,
      slashCombo, initGameState])).1
    (by
      intro j _
      norm_num [allOkEnvs, checkActionConditions]
      decide)
  exact ⟨h.1, h.2.1, h.2.2.1⟩

end BotCore
